import Mathlib

/-!
# Query front end: decoder, pre-search decoder and expander

A shallow embedding of the query-interpretation front end: `ParseQuery`
(the ordered shape-inference cascade over an untagged JSON object),
`ParsePreSearchData`, and `expandQuery` (the recursive rewrite replacing
query-string nodes by their parsed trees), together with a heap-level
rendering of `expandQuery` that makes the in-place mutation of composite
nodes observable.

The per-variant strict unmarshalers (`UnmarshalJSON` of the individual
query structs), the grammar parser `parseQuerySyntax` and the JSON byte
reader live outside this slice of the source; the decode cascade, the
fallback structure, the expander and the pre-search loop are translated
from the source, parameterised over those external functions.
-/

/-- A JSON value, as produced by generic unmarshalling into `interface{}`.
Numbers are modelled as rationals (the JSON texts relevant here are exact
decimals; the dispatch in `ParseQuery` inspects only whether a value *is*
a number or a string, never its magnitude). -/
inductive JValue where
  | null
  | bool (b : Bool)
  | num (q : Rat)
  | str (s : String)
  | arr (elts : List JValue)
  | obj (fields : List (String × JValue))
  deriving Repr

/-- A decoded JSON object: its fields, in input order.  The source decodes
the input bytes into `map[string]interface{}` first; we start from that
already-decoded object (a non-object input fails before the cascade). -/
abbrev JObj := List (String × JValue)

/-- Key lookup in a decoded object, the model of `tmp[k]`. -/
def jLookup (o : JObj) (k : String) : Option JValue :=
  List.lookup k o

/-- `_, ok := tmp[k]`: key presence. -/
def hasKey (o : JObj) (k : String) : Bool :=
  (jLookup o k).isSome

/-- `_, ok := tmp[k].(float64)`: the key is present and its value is a
JSON number. -/
def isJNum : Option JValue → Bool
  | some (.num _) => true
  | _ => false

/-- `_, ok := tmp[k].(string)`: the key is present and its value is a
JSON string. -/
def isJStr : Option JValue → Bool
  | some (.str _) => true
  | _ => false

/-- The query variants.  The tree structure (composite children, the
query-string text) is what `expandQuery` in the source traverses; the
leaf payloads are modelled from the spec (the variant structs are outside
this slice of the source) and carry the fields the wire predicates name. -/
inductive Query where
  | fuzzy (term : String) (fuzziness : Option Rat)
  | matchQ (text : String)
  | matchPhrase (text : String)
  | phrase (terms : List String) (field : Option String)
  | multiPhrase (terms : List (List String)) (field : Option String)
  | termQ (term : String)
  | boolean (must should mustNot : Option Query) (boost : Option Rat)
  | conjunction (conjuncts : List Query) (boost : Option Rat)
  | disjunction (disjuncts : List Query) (boost minShould : Option Rat)
  | queryString (query : String)
  | numericRange (min max : Option Rat)
  | termRange (min max : Option String)
  | dateRangeString (startVal endVal : Option String)
  | prefixQ (val : String)
  | regexpQ (val : String)
  | wildcard (val : String)
  | matchAll
  | matchNone
  | docID (ids : List String)
  | boolField (b : Bool)
  | geoBoundingBox (topLeft bottomRight : JValue)
  | geoDistance (location : JValue) (distance : String)
  | geoPolygon (points : List JValue)
  | geoShape (geometry : JValue)
  | ipRange (cidr : String)
  deriving Repr

/-- The family of per-variant strict decoders the cascade hands the raw
input to (`util.UnmarshalJSON(input, &rv)` for each concrete struct).
Those unmarshalers are outside this slice of the source, so `ParseQuery`
is parameterised over them; each returns the payload of its variant's
constructor, mirroring `var rv XQuery; Unmarshal(input, &rv)`. -/
structure QueryDecoders where
  fuzzy : JObj → Except String (String × Option Rat)
  matchQ : JObj → Except String String
  matchPhrase : JObj → Except String String
  phrase : JObj → Except String (List String × Option String)
  multiPhrase : JObj → Except String (List (List String) × Option String)
  termQ : JObj → Except String String
  boolean : JObj → Except String (Option Query × Option Query × Option Query × Option Rat)
  conjunction : JObj → Except String (List Query × Option Rat)
  disjunction : JObj → Except String (List Query × Option Rat × Option Rat)
  queryString : JObj → Except String String
  numericRange : JObj → Except String (Option Rat × Option Rat)
  termRange : JObj → Except String (Option String × Option String)
  dateRangeString : JObj → Except String (Option String × Option String)
  prefixQ : JObj → Except String String
  regexpQ : JObj → Except String String
  wildcard : JObj → Except String String
  matchAll : JObj → Except String Unit
  matchNone : JObj → Except String Unit
  docID : JObj → Except String (List String)
  boolField : JObj → Except String Bool
  geoBoundingBox : JObj → Except String (JValue × JValue)
  geoDistance : JObj → Except String (JValue × String)
  geoPolygon : JObj → Except String (List JValue)
  geoShape : JObj → Except String JValue
  ipRange : JObj → Except String String

/-- `ParseQuery`, translated from the source: the ordered key-presence
cascade over the decoded object, short-circuiting on the first matching
predicate; the matching branch performs the strict decode of the full
input into its variant and surfaces that decode's error, except for the
`terms` branch, which on Phrase decode failure retries as multi-term
Phrase and surfaces the retry's error.  No predicate matching yields
`unknown query type`. -/
def ParseQuery (d : QueryDecoders) (o : JObj) : Except String Query :=
  let hasFuzziness := hasKey o "fuzziness"
  let isMatchQuery := hasKey o "match"
  let isMatchPhraseQuery := hasKey o "match_phrase"
  let hasTerms := hasKey o "terms"
  if hasFuzziness && !isMatchQuery && !isMatchPhraseQuery && !hasTerms then
    (d.fuzzy o).map fun p => Query.fuzzy p.1 p.2
  else if isMatchQuery then
    (d.matchQ o).map Query.matchQ
  else if isMatchPhraseQuery then
    (d.matchPhrase o).map Query.matchPhrase
  else if hasTerms then
    match d.phrase o with
    | .ok rv => .ok (.phrase rv.1 rv.2)
    | .error _ =>
      -- now try multi-phrase
      match d.multiPhrase o with
      | .ok rv2 => .ok (.multiPhrase rv2.1 rv2.2)
      | .error e => .error e
  else if hasKey o "term" then
    (d.termQ o).map Query.termQ
  else if hasKey o "must" || hasKey o "should" || hasKey o "must_not" then
    (d.boolean o).map fun p => Query.boolean p.1 p.2.1 p.2.2.1 p.2.2.2
  else if hasKey o "conjuncts" then
    (d.conjunction o).map fun p => Query.conjunction p.1 p.2
  else if hasKey o "disjuncts" then
    (d.disjunction o).map fun p => Query.disjunction p.1 p.2.1 p.2.2
  else if hasKey o "query" then
    (d.queryString o).map Query.queryString
  else if isJNum (jLookup o "min") || isJNum (jLookup o "max") then
    (d.numericRange o).map fun p => Query.numericRange p.1 p.2
  else if isJStr (jLookup o "min") || isJStr (jLookup o "max") then
    (d.termRange o).map fun p => Query.termRange p.1 p.2
  else if hasKey o "start" || hasKey o "end" then
    (d.dateRangeString o).map fun p => Query.dateRangeString p.1 p.2
  else if hasKey o "prefix" then
    (d.prefixQ o).map Query.prefixQ
  else if hasKey o "regexp" then
    (d.regexpQ o).map Query.regexpQ
  else if hasKey o "wildcard" then
    (d.wildcard o).map Query.wildcard
  else if hasKey o "match_all" then
    (d.matchAll o).map fun _ => Query.matchAll
  else if hasKey o "match_none" then
    (d.matchNone o).map fun _ => Query.matchNone
  else if hasKey o "ids" then
    (d.docID o).map Query.docID
  else if hasKey o "bool" then
    (d.boolField o).map Query.boolField
  else if hasKey o "top_left" && hasKey o "bottom_right" then
    (d.geoBoundingBox o).map fun p => Query.geoBoundingBox p.1 p.2
  else if hasKey o "distance" then
    (d.geoDistance o).map fun p => Query.geoDistance p.1 p.2
  else if hasKey o "polygon_points" then
    (d.geoPolygon o).map Query.geoPolygon
  else if hasKey o "geometry" then
    (d.geoShape o).map Query.geoShape
  else if hasKey o "cidr" then
    (d.ipRange o).map Query.ipRange
  else
    .error "unknown query type"

/-- The documented cascade of spec section 4.2, steps 1-24, written down
from the spec's ordered list: `firstMatchingStep o = some i` when step `i`
is the first whose predicate holds on `o`, and `none` when no step
matches (the spec's step 25).  This is the spec-side object the decoder
is compared against. -/
def firstMatchingStep (o : JObj) : Option Nat :=
  if hasKey o "fuzziness" && !hasKey o "match" && !hasKey o "match_phrase" && !hasKey o "terms" then some 1
  else if hasKey o "match" then some 2
  else if hasKey o "match_phrase" then some 3
  else if hasKey o "terms" then some 4
  else if hasKey o "term" then some 5
  else if hasKey o "must" || hasKey o "should" || hasKey o "must_not" then some 6
  else if hasKey o "conjuncts" then some 7
  else if hasKey o "disjuncts" then some 8
  else if hasKey o "query" then some 9
  else if isJNum (jLookup o "min") || isJNum (jLookup o "max") then some 10
  else if isJStr (jLookup o "min") || isJStr (jLookup o "max") then some 11
  else if hasKey o "start" || hasKey o "end" then some 12
  else if hasKey o "prefix" then some 13
  else if hasKey o "regexp" then some 14
  else if hasKey o "wildcard" then some 15
  else if hasKey o "match_all" then some 16
  else if hasKey o "match_none" then some 17
  else if hasKey o "ids" then some 18
  else if hasKey o "bool" then some 19
  else if hasKey o "top_left" && hasKey o "bottom_right" then some 20
  else if hasKey o "distance" then some 21
  else if hasKey o "polygon_points" then some 22
  else if hasKey o "geometry" then some 23
  else if hasKey o "cidr" then some 24
  else none

/-- The decode each cascade step performs once its predicate has matched:
the strict decode into that step's variant, surfacing its error, with
step 4's documented Phrase to multi-term-Phrase fallback. -/
def stepBody (d : QueryDecoders) (i : Nat) (o : JObj) : Except String Query :=
  match i with
  | 1 => (d.fuzzy o).map fun p => Query.fuzzy p.1 p.2
  | 2 => (d.matchQ o).map Query.matchQ
  | 3 => (d.matchPhrase o).map Query.matchPhrase
  | 4 =>
    match d.phrase o with
    | .ok rv => .ok (.phrase rv.1 rv.2)
    | .error _ =>
      match d.multiPhrase o with
      | .ok rv2 => .ok (.multiPhrase rv2.1 rv2.2)
      | .error e => .error e
  | 5 => (d.termQ o).map Query.termQ
  | 6 => (d.boolean o).map fun p => Query.boolean p.1 p.2.1 p.2.2.1 p.2.2.2
  | 7 => (d.conjunction o).map fun p => Query.conjunction p.1 p.2
  | 8 => (d.disjunction o).map fun p => Query.disjunction p.1 p.2.1 p.2.2
  | 9 => (d.queryString o).map Query.queryString
  | 10 => (d.numericRange o).map fun p => Query.numericRange p.1 p.2
  | 11 => (d.termRange o).map fun p => Query.termRange p.1 p.2
  | 12 => (d.dateRangeString o).map fun p => Query.dateRangeString p.1 p.2
  | 13 => (d.prefixQ o).map Query.prefixQ
  | 14 => (d.regexpQ o).map Query.regexpQ
  | 15 => (d.wildcard o).map Query.wildcard
  | 16 => (d.matchAll o).map fun _ => Query.matchAll
  | 17 => (d.matchNone o).map fun _ => Query.matchNone
  | 18 => (d.docID o).map Query.docID
  | 19 => (d.boolField o).map Query.boolField
  | 20 => (d.geoBoundingBox o).map fun p => Query.geoBoundingBox p.1 p.2
  | 21 => (d.geoDistance o).map fun p => Query.geoDistance p.1 p.2
  | 22 => (d.geoPolygon o).map Query.geoPolygon
  | 23 => (d.geoShape o).map Query.geoShape
  | 24 => (d.ipRange o).map Query.ipRange
  | _ => .error "unknown query type"

/-- The keys the cascade's predicates inspect, in cascade order.  Two
inputs agreeing on these keys are indistinguishable to every predicate. -/
def cascadeKeys : List String :=
  ["fuzziness", "match", "match_phrase", "terms", "term",
   "must", "should", "must_not", "conjuncts", "disjuncts", "query",
   "min", "max", "start", "end", "prefix", "regexp", "wildcard",
   "match_all", "match_none", "ids", "bool",
   "top_left", "bottom_right", "distance", "polygon_points", "geometry", "cidr"]

/-! ## The expander, value level

`expandQuery` traverses the tree and replaces every query-string node by
the (recursively expanded) tree its text parses to.  The grammar parser
`parseQuerySyntax` is outside this slice of the source, so the expander
is parameterised over it (`pq`).  The parser may in principle return
query-string nodes again, so that recursion is not structural; `fuel`
bounds only the number of successive parser outputs re-entered (the
source would loop forever on a parser that keeps returning query-string
nodes), all other recursion is structural.  The index-mapping argument
of the source function is unused by it and omitted. -/

mutual

/-- `expand` from the source `expandQuery`, written over tree values:
the composite cases rebuild the node with its child slots reassigned to
the expanded children (the heap-level rendering below keeps the source's
in-place mutation observable), every other variant is returned as is. -/
def expandQuery (pq : String → Except String Query) : Nat → Query → Except String Query
  | fuel, .queryString s =>
    match pq s with
    | .error e => .error ("could not parse '" ++ s ++ "': " ++ e)
    | .ok parsed =>
      match fuel with
      | 0 => .error "expansion depth exceeded"
      | f + 1 => expandQuery pq f parsed
  | fuel, .conjunction cs b =>
    match expandSlice pq fuel cs with
    | .error e => .error e
    | .ok children => .ok (.conjunction children b)
  | fuel, .disjunction ds b m =>
    match expandSlice pq fuel ds with
    | .error e => .error e
    | .ok children => .ok (.disjunction children b m)
  | fuel, .boolean must should mustNot b =>
    match expandOpt pq fuel must with
    | .error e => .error e
    | .ok must1 =>
      match expandOpt pq fuel should with
      | .error e => .error e
      | .ok should1 =>
        match expandOpt pq fuel mustNot with
        | .error e => .error e
        | .ok mustNot1 => .ok (.boolean must1 should1 mustNot1 b)
  | _, q => .ok q
termination_by fuel q => (fuel, sizeOf q)

/-- `expandSlice` from the source: expands the children one by one in
input order, short-circuiting on the first error and collecting the
results in order. -/
def expandSlice (pq : String → Except String Query) : Nat → List Query → Except String (List Query)
  | _, [] => .ok []
  | fuel, q :: rest =>
    match expandQuery pq fuel q with
    | .error e => .error e
    | .ok exp =>
      match expandSlice pq fuel rest with
      | .error e => .error e
      | .ok exps => .ok (exp :: exps)
termination_by fuel qs => (fuel, sizeOf qs)

/-- A Boolean slot: Go's `expand(q.Must)` on a nil slot falls into the
`default` case and returns nil unchanged, so an absent slot stays absent
and is never an error. -/
def expandOpt (pq : String → Except String Query) : Nat → Option Query → Except String (Option Query)
  | _, none => .ok none
  | fuel, some q =>
    match expandQuery pq fuel q with
    | .error e => .error e
    | .ok exp => .ok (some exp)
termination_by fuel oq => (fuel, sizeOf oq)

end

mutual

/-- `true` iff the tree contains no query-string node anywhere (a "pure"
tree, on which expansion has nothing to rewrite). -/
def pureTree : Query → Bool
  | .queryString _ => false
  | .conjunction cs _ => pureList cs
  | .disjunction ds _ _ => pureList ds
  | .boolean m s n _ => pureOpt m && pureOpt s && pureOpt n
  | _ => true

def pureList : List Query → Bool
  | [] => true
  | q :: rest => pureTree q && pureList rest

def pureOpt : Option Query → Bool
  | none => true
  | some q => pureTree q

end

/-- A variant that is neither composite nor a query-string node: the
`default` arm of the source's type switch. -/
def isLeafVariant : Query → Bool
  | .queryString _ => false
  | .conjunction _ _ => false
  | .disjunction _ _ _ => false
  | .boolean _ _ _ _ => false
  | _ => true

/-! ## The expander, heap level

The source mutates composite nodes in place (`q.Conjuncts = children;
return q`) and returns the pointer it was given.  To make that
observable, the same function is rendered over an explicit heap: nodes
live in a store addressed by naturals, composite nodes hold the
addresses of their children, and the composite cases of `expand` write
the updated node back at the *same* address and return that address.
Here `fuel` bounds the total recursion depth (the store carries no
structural measure); a sufficiently large fuel reproduces every
terminating run of the source. -/

/-- A heap node: composites and query-string nodes carry their structure
(children as addresses), every other variant is an opaque leaf. -/
inductive HNode where
  | queryString (s : String)
  | conjunction (conjuncts : List Nat) (boost : Option Rat)
  | disjunction (disjuncts : List Nat) (boost minShould : Option Rat)
  | boolean (must should mustNot : Option Nat) (boost : Option Rat)
  | leaf (q : Query)
  deriving Repr

/-- The heap: node at address `p` is entry `p` of the list. -/
abbrev Store := List HNode

def storeGet (st : Store) (p : Nat) : Option HNode :=
  st.get? p

def storeSet (st : Store) (p : Nat) (n : HNode) : Store :=
  st.set p n

mutual

/-- Copies a value-level tree into the store (used for the output of the
grammar parser, which the source receives as a fresh tree); returns the
grown store and the address of the root. -/
def allocTree : Store → Query → Store × Nat
  | st, .queryString s => (st ++ [.queryString s], st.length)
  | st, .conjunction cs b =>
    let r := allocList st cs
    (r.1 ++ [.conjunction r.2 b], r.1.length)
  | st, .disjunction ds b m =>
    let r := allocList st ds
    (r.1 ++ [.disjunction r.2 b m], r.1.length)
  | st, .boolean m s n b =>
    let rm := allocOpt st m
    let rs := allocOpt rm.1 s
    let rn := allocOpt rs.1 n
    (rn.1 ++ [.boolean rm.2 rs.2 rn.2 b], rn.1.length)
  | st, q => (st ++ [.leaf q], st.length)
termination_by _st q => sizeOf q

def allocList : Store → List Query → Store × List Nat
  | st, [] => (st, [])
  | st, q :: rest =>
    let r := allocTree st q
    let rr := allocList r.1 rest
    (rr.1, r.2 :: rr.2)
termination_by _st qs => sizeOf qs

def allocOpt : Store → Option Query → Store × Option Nat
  | st, none => (st, none)
  | st, some q =>
    let r := allocTree st q
    (r.1, some r.2)
termination_by _st oq => sizeOf oq

end

mutual

/-- The source's `expand`, heap level.  The query-string case parses the
text, allocates the parser's output and expands it; the composite cases
expand the children, then write the node with its child slots reassigned
back at the same address and return that address; leaves come back
untouched.  `fuel` (absent in the source, which recurses natively)
bounds the recursion depth. -/
def expandQueryH (pq : String → Except String Query) : Nat → Store → Nat → Except String (Store × Nat)
  | 0, _, _ => .error "expansion depth exceeded"
  | fuel + 1, st, ptr =>
    match storeGet st ptr with
    | some (.queryString s) =>
      match pq s with
      | .error e => .error ("could not parse '" ++ s ++ "': " ++ e)
      | .ok parsed =>
        let r := allocTree st parsed
        expandQueryH pq fuel r.1 r.2
    | some (.conjunction cs b) =>
      match expandSliceH pq fuel st cs with
      | .error e => .error e
      | .ok r => .ok (storeSet r.1 ptr (.conjunction r.2 b), ptr)
    | some (.disjunction ds b m) =>
      match expandSliceH pq fuel st ds with
      | .error e => .error e
      | .ok r => .ok (storeSet r.1 ptr (.disjunction r.2 b m), ptr)
    | some (.boolean m s n b) =>
      match expandOptH pq fuel st m with
      | .error e => .error e
      | .ok rm =>
        match expandOptH pq fuel rm.1 s with
        | .error e => .error e
        | .ok rs =>
          match expandOptH pq fuel rs.1 n with
          | .error e => .error e
          | .ok rn => .ok (storeSet rn.1 ptr (.boolean rm.2 rs.2 rn.2 b), ptr)
    | some (.leaf _) => .ok (st, ptr)
    | none => .error "dangling pointer"
termination_by fuel _st _ptr => (fuel, 0)

def expandSliceH (pq : String → Except String Query) : Nat → Store → List Nat → Except String (Store × List Nat)
  | _, st, [] => .ok (st, [])
  | fuel, st, p :: rest =>
    match expandQueryH pq fuel st p with
    | .error e => .error e
    | .ok r =>
      match expandSliceH pq fuel r.1 rest with
      | .error e => .error e
      | .ok rr => .ok (rr.1, r.2 :: rr.2)
termination_by fuel _st ps => (fuel, ps.length + 1)

def expandOptH (pq : String → Except String Query) : Nat → Store → Option Nat → Except String (Store × Option Nat)
  | _, st, none => .ok (st, none)
  | fuel, st, some p =>
    match expandQueryH pq fuel st p with
    | .error e => .error e
    | .ok r => .ok (r.1, some r.2)
termination_by fuel _st _op => (fuel, 1)

end

/-- A composite heap node (the three variants the source mutates in
place). -/
def isCompositeH : HNode → Bool
  | .conjunction _ _ => true
  | .disjunction _ _ _ => true
  | .boolean _ _ _ _ => true
  | _ => false

/-! ## Concrete decoders, modelled from the spec

The per-variant unmarshalers are outside this slice of the source.  The
cascade theorems below are parametric in the decoder family; the family
here is a concrete instance used to evaluate them on closed inputs, with
each field's shape taken from the spec's wire description. -/

/-- Reads an optional string field: absent or null gives `none`, a string
gives the string, any other shape is a strict-decode failure. -/
def jStrOpt (o : JObj) (k : String) : Except String (Option String) :=
  match jLookup o k with
  | none => .ok none
  | some .null => .ok none
  | some (.str s) => .ok (some s)
  | some _ => .error ("cannot decode string field " ++ k)

/-- Reads an optional number field, as `jStrOpt` for numbers. -/
def jNumOpt (o : JObj) (k : String) : Except String (Option Rat) :=
  match jLookup o k with
  | none => .ok none
  | some .null => .ok none
  | some (.num q) => .ok (some q)
  | some _ => .error ("cannot decode number field " ++ k)

/-- Reads a string field, absent decoding to the zero value `""`. -/
def jStrD (o : JObj) (k : String) : Except String String :=
  (jStrOpt o k).map fun s => s.getD ""

/-- Decodes one JSON value as a string. -/
def asStr : JValue → Except String String
  | .str s => .ok s
  | _ => .error "cannot decode string element"

/-- Reads a field holding a list of strings; absent or null decodes to
the zero value `[]`. -/
def jStrList (o : JObj) (k : String) : Except String (List String) :=
  match jLookup o k with
  | none => .ok []
  | some .null => .ok []
  | some (.arr elts) => elts.mapM asStr
  | some _ => .error ("cannot decode string list field " ++ k)

/-- Decodes one JSON value as a list of strings. -/
def asStrList : JValue → Except String (List String)
  | .arr elts => elts.mapM asStr
  | _ => .error "cannot decode string list element"

/-- Reads a field holding a list of lists of strings (the multi-term
Phrase shape: one list of alternatives per position). -/
def jStrListList (o : JObj) (k : String) : Except String (List (List String)) :=
  match jLookup o k with
  | none => .ok []
  | some .null => .ok []
  | some (.arr elts) => elts.mapM asStrList
  | some _ => .error ("cannot decode string list list field " ++ k)

/-- Modelled from the spec: decodes a child query value (composite
variants embed sub-queries), given the decoder family to use for it;
a sub-query must itself be an object. -/
def decodeChild (d : QueryDecoders) : JValue → Except String Query
  | .obj fields => ParseQuery d fields
  | _ => .error "cannot decode child query"

def decodeChildOpt (d : QueryDecoders) (o : JObj) (k : String) : Except String (Option Query) :=
  match jLookup o k with
  | none => .ok none
  | some .null => .ok none
  | some v => (decodeChild d v).map some

def decodeChildList (d : QueryDecoders) (o : JObj) (k : String) : Except String (List Query) :=
  match jLookup o k with
  | none => .ok []
  | some .null => .ok []
  | some (.arr elts) => elts.mapM (decodeChild d)
  | some _ => .error ("cannot decode child list field " ++ k)

/-- Modelled from the spec: the non-recursive part of a concrete decoder
family; composite variants (whose children would recurse through the
cascade) fail here and are filled in by `specDecoders`. -/
def baseDecoders : QueryDecoders :=
    { fuzzy := fun o => do pure (← jStrD o "term", ← jNumOpt o "fuzziness")
      matchQ := fun o => jStrD o "match"
      matchPhrase := fun o => jStrD o "match_phrase"
      phrase := fun o => do pure (← jStrList o "terms", ← jStrOpt o "field")
      multiPhrase := fun o => do pure (← jStrListList o "terms", ← jStrOpt o "field")
      termQ := fun o => jStrD o "term"
      boolean := fun _ => .error "child decode depth exceeded"
      conjunction := fun _ => .error "child decode depth exceeded"
      disjunction := fun _ => .error "child decode depth exceeded"
      queryString := fun o => jStrD o "query"
      numericRange := fun o => do pure (← jNumOpt o "min", ← jNumOpt o "max")
      termRange := fun o => do pure (← jStrOpt o "min", ← jStrOpt o "max")
      dateRangeString := fun o => do pure (← jStrOpt o "start", ← jStrOpt o "end")
      prefixQ := fun o => jStrD o "prefix"
      regexpQ := fun o => jStrD o "regexp"
      wildcard := fun o => jStrD o "wildcard"
      matchAll := fun _ => .ok ()
      matchNone := fun _ => .ok ()
      docID := fun o => jStrList o "ids"
      boolField := fun o =>
        match jLookup o "bool" with
        | some (.bool b) => .ok b
        | none => .ok false
        | some _ => .error "cannot decode bool field"
      geoBoundingBox := fun o => do
        pure ((jLookup o "top_left").getD .null, (jLookup o "bottom_right").getD .null)
      geoDistance := fun o => do
        pure ((jLookup o "location").getD .null, ← jStrD o "distance")
      geoPolygon := fun o =>
        match jLookup o "polygon_points" with
        | some (.arr elts) => .ok elts
        | _ => .error "cannot decode polygon points"
      geoShape := fun o => .ok ((jLookup o "geometry").getD .null)
      ipRange := fun o => jStrD o "cidr" }

/-- Modelled from the spec: a concrete decoder family.  Composite
variants decode their children recursively through the cascade itself;
`depth` bounds that recursion (the wire format is a finite tree, so any
depth at least the input's nesting suffices). -/
def specDecoders : Nat → QueryDecoders
  | 0 => baseDecoders
  | d + 1 =>
    { baseDecoders with
      boolean := fun o => do
        pure (← decodeChildOpt (specDecoders d) o "must",
              ← decodeChildOpt (specDecoders d) o "should",
              ← decodeChildOpt (specDecoders d) o "must_not",
              ← jNumOpt o "boost")
      conjunction := fun o => do
        pure (← decodeChildList (specDecoders d) o "conjuncts", ← jNumOpt o "boost")
      disjunction := fun o => do
        pure (← decodeChildList (specDecoders d) o "disjuncts",
              ← jNumOpt o "boost", ← jNumOpt o "min") }

/-! ## The pre-search data decoder -/

/-- Modelled from the spec: a precomputed match candidate (document id
and score) carried in pre-search data. -/
structure DocumentMatch where
  id : String
  score : Rat
  deriving Repr

/-- The reserved pre-search key (`search.KnnPreSearchDataKey`; the
constant's spelling lives outside this slice of the source and is
immaterial to the decoder's behaviour). -/
def knnPreSearchDataKey : String := "_knn_pre_search_data_key"

/-- Modelled from the spec: decodes one match-candidate record. -/
def decodeDocMatch : JValue → Except String DocumentMatch
  | .obj fields => do
    match jLookup fields "id", jLookup fields "score" with
    | some (.str i), some (.num s) => .ok ⟨i, s⟩
    | some (.str i), none => .ok ⟨i, 0⟩
    | _, _ => .error "cannot decode document match"
  | _ => .error "cannot decode document match"

/-- Modelled from the spec: decodes the reserved key's payload, a list
of match-candidate records; a JSON null decodes to the empty list (the
source unmarshals null into a slice, leaving it empty) rather than
failing. -/
def decodeDocMatchList : JValue → Except String (List DocumentMatch)
  | .null => .ok []
  | .arr elts => elts.mapM decodeDocMatch
  | _ => .error "cannot decode pre-search data"

/-- The loop body of `ParsePreSearchData`: walks the object's entries;
an entry under the reserved key decodes its value and stores it (the
result map is allocated at that point, `rv == nil` before), any other
key is skipped.  `rv : Option _` distinguishes the nil map (`none`) from
an allocated one, exactly as the source's `var rv map[string]interface{}`
does. -/
def parsePreSearchLoop :
    JObj → Option (List (String × List DocumentMatch)) →
    Except String (Option (List (String × List DocumentMatch)))
  | [], rv => .ok rv
  | (k, v) :: rest, rv =>
    if k = knnPreSearchDataKey then
      match decodeDocMatchList v with
      | .error e => .error e
      | .ok value => parsePreSearchLoop rest (some [(knnPreSearchDataKey, value)])
    else
      parsePreSearchLoop rest rv

/-- `ParsePreSearchData`, translated from the source: scans the decoded
object for the reserved key; unrecognized keys are skipped; when no
reserved key occurs the map is never allocated and the nil map comes
back. -/
def ParsePreSearchData (o : JObj) : Except String (Option (List (String × List DocumentMatch))) :=
  parsePreSearchLoop o none

/-! ## Closed fixtures used by the concrete parts of the theorems -/

/-- A two-stage grammar parser: the text "a" parses to another
query-string node (nested string-syntax construct), "b" to a plain
leaf.  Exhibits that the parser's output is expanded again rather than
returned verbatim. -/
def exParser : String → Except String Query :=
  fun s =>
    if s = "a" then .ok (.queryString "b")
    else if s = "b" then .ok .matchAll
    else .error ("unable to parse " ++ s)

/-- A one-shot parser for the heap example: "x" parses to a leaf. -/
def exParse : String → Except String Query :=
  fun s => if s = "x" then .ok .matchAll else .error ("unable to parse " ++ s)

/-- A heap holding a conjunction (address 1) whose only child (address 0)
is a query-string node. -/
def exStore : Store := [.queryString "x", .conjunction [0] none]

/-- `exStore` after expansion: the parsed leaf was allocated at address
2 and the conjunction *at its old address 1* now points at it; the old
child slot value is gone. -/
def exStoreAfter : Store := [.queryString "x", .conjunction [2] none, .leaf .matchAll]

/-! ## Theorems -/

/-- Helper: `ParseQuery` is exactly the documented cascade of spec
section 4.2: the branch taken is the first step whose predicate matches,
its body that step's decode; no step matching gives the unknown-variant
error. -/
theorem parseQuery_eq_cascade (d : QueryDecoders) (o : JObj) :
    ParseQuery d o =
      match firstMatchingStep o with
      | some i => stepBody d i o
      | none => .error "unknown query type" := by
  unfold ParseQuery firstMatchingStep
  dsimp only
  cases (hasKey o "fuzziness" && !hasKey o "match" && !hasKey o "match_phrase" && !hasKey o "terms") with
  | true => rfl
  | false =>
    cases (hasKey o "match") with
    | true => rfl
    | false =>
      cases (hasKey o "match_phrase") with
      | true => rfl
      | false =>
        cases (hasKey o "terms") with
        | true => rfl
        | false =>
          cases (hasKey o "term") with
          | true => rfl
          | false =>
            cases (hasKey o "must" || hasKey o "should" || hasKey o "must_not") with
            | true => rfl
            | false =>
              cases (hasKey o "conjuncts") with
              | true => rfl
              | false =>
                cases (hasKey o "disjuncts") with
                | true => rfl
                | false =>
                  cases (hasKey o "query") with
                  | true => rfl
                  | false =>
                    cases (isJNum (jLookup o "min") || isJNum (jLookup o "max")) with
                    | true => rfl
                    | false =>
                      cases (isJStr (jLookup o "min") || isJStr (jLookup o "max")) with
                      | true => rfl
                      | false =>
                        cases (hasKey o "start" || hasKey o "end") with
                        | true => rfl
                        | false =>
                          cases (hasKey o "prefix") with
                          | true => rfl
                          | false =>
                            cases (hasKey o "regexp") with
                            | true => rfl
                            | false =>
                              cases (hasKey o "wildcard") with
                              | true => rfl
                              | false =>
                                cases (hasKey o "match_all") with
                                | true => rfl
                                | false =>
                                  cases (hasKey o "match_none") with
                                  | true => rfl
                                  | false =>
                                    cases (hasKey o "ids") with
                                    | true => rfl
                                    | false =>
                                      cases (hasKey o "bool") with
                                      | true => rfl
                                      | false =>
                                        cases (hasKey o "top_left" && hasKey o "bottom_right") with
                                        | true => rfl
                                        | false =>
                                          cases (hasKey o "distance") with
                                          | true => rfl
                                          | false =>
                                            cases (hasKey o "polygon_points") with
                                            | true => rfl
                                            | false =>
                                              cases (hasKey o "geometry") with
                                              | true => rfl
                                              | false =>
                                                cases (hasKey o "cidr") with
                                                | true => rfl
                                                | false =>
                                                  rfl

/-- Helper: the cascade's predicates read the input only through lookups
at the keys of `cascadeKeys`; two objects agreeing there select the same
step, whatever order or extra keys either carries. -/
theorem firstMatchingStep_congr (o o2 : JObj)
    (h : ∀ k ∈ cascadeKeys, jLookup o k = jLookup o2 k) :
    firstMatchingStep o = firstMatchingStep o2 := by
  have e1 := h "fuzziness" (by simp [cascadeKeys])
  have e2 := h "match" (by simp [cascadeKeys])
  have e3 := h "match_phrase" (by simp [cascadeKeys])
  have e4 := h "terms" (by simp [cascadeKeys])
  have e5 := h "term" (by simp [cascadeKeys])
  have e6 := h "must" (by simp [cascadeKeys])
  have e7 := h "should" (by simp [cascadeKeys])
  have e8 := h "must_not" (by simp [cascadeKeys])
  have e9 := h "conjuncts" (by simp [cascadeKeys])
  have e10 := h "disjuncts" (by simp [cascadeKeys])
  have e11 := h "query" (by simp [cascadeKeys])
  have e12 := h "min" (by simp [cascadeKeys])
  have e13 := h "max" (by simp [cascadeKeys])
  have e14 := h "start" (by simp [cascadeKeys])
  have e15 := h "end" (by simp [cascadeKeys])
  have e16 := h "prefix" (by simp [cascadeKeys])
  have e17 := h "regexp" (by simp [cascadeKeys])
  have e18 := h "wildcard" (by simp [cascadeKeys])
  have e19 := h "match_all" (by simp [cascadeKeys])
  have e20 := h "match_none" (by simp [cascadeKeys])
  have e21 := h "ids" (by simp [cascadeKeys])
  have e22 := h "bool" (by simp [cascadeKeys])
  have e23 := h "top_left" (by simp [cascadeKeys])
  have e24 := h "bottom_right" (by simp [cascadeKeys])
  have e25 := h "distance" (by simp [cascadeKeys])
  have e26 := h "polygon_points" (by simp [cascadeKeys])
  have e27 := h "geometry" (by simp [cascadeKeys])
  have e28 := h "cidr" (by simp [cascadeKeys])
  simp only [firstMatchingStep, hasKey, e1, e2, e3, e4, e5, e6, e7, e8, e9, e10, e11, e12, e13, e14, e15, e16, e17, e18, e19, e20, e21, e22, e23, e24, e25, e26, e27, e28]

/-- C1: for every decoded input, `ParseQuery` selects exactly one branch
by evaluating the 24 predicates of the documented cascade in order,
short-circuiting on the first match (`firstMatchingStep`); the selection
reads the input only through key lookups, so two inputs carrying the
same key/value associations in any order select the same step; and on an
input whose key set satisfies both the `match` and the `fuzziness`
variants' shapes, the step selected is 2 (Match), the first whose
predicate holds in the documented order. -/
theorem parseQuery_cascade_deterministic (d : QueryDecoders) (o o2 : JObj)
    (h : ∀ k ∈ cascadeKeys, jLookup o k = jLookup o2 k) :
    firstMatchingStep o = firstMatchingStep o2
    ∧ ParseQuery d o = (match firstMatchingStep o with
        | some i => stepBody d i o
        | none => .error "unknown query type")
    ∧ (hasKey o "match" = true → hasKey o "fuzziness" = true →
        firstMatchingStep o = some 2
        ∧ ParseQuery d o = (d.matchQ o).map Query.matchQ) := by
  refine ⟨firstMatchingStep_congr o o2 h, parseQuery_eq_cascade d o, ?_⟩
  intro hm hf
  have h2 : firstMatchingStep o = some 2 := by
    simp [firstMatchingStep, hm, hf]
  refine ⟨h2, ?_⟩
  rw [parseQuery_eq_cascade d o, h2]
  rfl

/-- C1, evaluated: an object carrying both `match` and `fuzziness`
decodes as Match, and reordering its keys does not change the step
selected. -/
theorem parseQuery_cascade_deterministic_witness :
    ParseQuery (specDecoders 0) [("match", .str "x"), ("fuzziness", .num 2)]
        = .ok (.matchQ "x")
    ∧ firstMatchingStep [("match", .str "x"), ("fuzziness", .num 2)]
        = firstMatchingStep [("fuzziness", .num 2), ("match", .str "x")] := by
  have H := parseQuery_cascade_deterministic (specDecoders 0)
      [("match", .str "x"), ("fuzziness", .num 2)]
      [("fuzziness", .num 2), ("match", .str "x")]
      (by intro k hk; fin_cases hk <;> rfl)
  refine ⟨?_, H.1⟩
  have h3 := H.2.2 rfl rfl
  rw [h3.2]
  rfl

/-- C9: when no predicate of the cascade matches, `ParseQuery` fails
with the unknown-variant error (a fixed message naming no candidate
variant) and returns no query node; in particular the empty object does. -/
theorem parseQuery_unknown_variant (d : QueryDecoders) (o : JObj)
    (h : firstMatchingStep o = none) :
    ParseQuery d o = .error "unknown query type"
    ∧ ParseQuery d [] = .error "unknown query type"
    ∧ firstMatchingStep ([] : JObj) = none := by
  refine ⟨?_, rfl, rfl⟩
  rw [parseQuery_eq_cascade d o, h]

/-- C9, evaluated at an unmatched object. -/
theorem parseQuery_unknown_variant_witness :
    ParseQuery (specDecoders 0) [("zzz", .null)] = .error "unknown query type" :=
  (parseQuery_unknown_variant (specDecoders 0) [("zzz", .null)] rfl).1

/-- C10: a `min`/`max` key whose value is neither a number nor a string
satisfies neither range predicate (the key counts as absent for both),
so an input with no other matching key falls through to the
unknown-variant error instead of a range decode error. -/
theorem parseQuery_range_nonscalar_falls_through (d : QueryDecoders) (v w : JValue)
    (hv1 : isJNum (some v) = false) (hv2 : isJStr (some v) = false)
    (hw1 : isJNum (some w) = false) (hw2 : isJStr (some w) = false) :
    hasKey [("min", v), ("max", w)] "min" = true
    ∧ firstMatchingStep [("min", v), ("max", w)] = none
    ∧ ParseQuery d [("min", v), ("max", w)] = .error "unknown query type"
    ∧ firstMatchingStep [("min", v)] = none
    ∧ ParseQuery d [("min", v)] = .error "unknown query type" := by
  have hn : isJNum (none : Option JValue) = false := rfl
  have hs : isJStr (none : Option JValue) = false := rfl
  have lmax : List.lookup "max" [("min", v), ("max", w)] = some w := rfl
  have lmax2 : List.lookup "max" [("min", v)] = none := rfl
  have h1 : firstMatchingStep [("min", v), ("max", w)] = none := by
    simp [firstMatchingStep, hasKey, jLookup, lmax, hv1, hv2, hw1, hw2, hn, hs]
  have h2 : firstMatchingStep [("min", v)] = none := by
    simp [firstMatchingStep, hasKey, jLookup, lmax2, hv1, hv2, hn, hs]
  refine ⟨rfl, h1, ?_, h2, ?_⟩
  · rw [parseQuery_eq_cascade d _, h1]
  · rw [parseQuery_eq_cascade d _, h2]

/-- C10, evaluated at null and boolean range bounds. -/
theorem parseQuery_range_nonscalar_falls_through_witness :
    ParseQuery (specDecoders 0) [("min", .null), ("max", .bool true)]
      = .error "unknown query type" :=
  (parseQuery_range_nonscalar_falls_through (specDecoders 0) .null (.bool true)
    rfl rfl rfl rfl).2.2.1

/-- C5: the range dispatch depends on the dynamic type of the `min`/`max`
values, not on key presence: when step 10 is the first match (`min` or
`max` holds a number) the input is decoded as NumericRange, when step 11
is (`min` or `max` holds a string, neither a number) as TermRange; on
the concrete shapes, numeric bounds decode to NumericRange carrying
those numbers and string bounds to TermRange carrying those strings. -/
theorem parseQuery_range_type_dispatch (d : QueryDecoders) (o : JObj) :
    (firstMatchingStep o = some 10 →
      ParseQuery d o = (d.numericRange o).map fun p => Query.numericRange p.1 p.2)
    ∧ (firstMatchingStep o = some 11 →
      ParseQuery d o = (d.termRange o).map fun p => Query.termRange p.1 p.2)
    ∧ (∀ a b : Rat, ParseQuery (specDecoders 0) [("min", .num a), ("max", .num b)]
        = .ok (.numericRange (some a) (some b)))
    ∧ (∀ s t : String, ParseQuery (specDecoders 0) [("min", .str s), ("max", .str t)]
        = .ok (.termRange (some s) (some t))) := by
  refine ⟨?_, ?_, ?_, ?_⟩
  · intro h; rw [parseQuery_eq_cascade d o, h]; rfl
  · intro h; rw [parseQuery_eq_cascade d o, h]; rfl
  · intro a b; rfl
  · intro s t; rfl

/-- C5, evaluated: the spec's two example inputs. -/
theorem parseQuery_range_type_dispatch_witness :
    ParseQuery (specDecoders 0) [("min", .num 5), ("max", .num 10)]
      = .ok (.numericRange (some 5) (some 10))
    ∧ ParseQuery (specDecoders 0) [("min", .str "a"), ("max", .str "z")]
      = .ok (.termRange (some "a") (some "z")) :=
  ⟨(parseQuery_range_type_dispatch (specDecoders 0) []).2.2.1 5 10,
   (parseQuery_range_type_dispatch (specDecoders 0) []).2.2.2 "a" "z"⟩

/-- C3: with `terms` present (and neither `match` nor `match_phrase`,
which would shadow it), `ParseQuery` is the strict Phrase decode with
the documented fallback: Phrase decode failure — and only failure —
leads to the multi-term Phrase decode; its success yields the multi-term
variant and its failure is the error surfaced; Phrase decode success
yields Phrase without consulting the multi-term decoder. -/
theorem parseQuery_terms_fallback (d : QueryDecoders) (o : JObj)
    (h1 : hasKey o "match" = false) (h2 : hasKey o "match_phrase" = false)
    (h3 : hasKey o "terms" = true) :
    ParseQuery d o =
      (match d.phrase o with
       | .ok rv => .ok (.phrase rv.1 rv.2)
       | .error _ =>
         match d.multiPhrase o with
         | .ok rv2 => .ok (.multiPhrase rv2.1 rv2.2)
         | .error e => .error e)
    ∧ (∀ rv, d.phrase o = .ok rv → ParseQuery d o = .ok (.phrase rv.1 rv.2))
    ∧ (∀ e rv2, d.phrase o = .error e → d.multiPhrase o = .ok rv2 →
        ParseQuery d o = .ok (.multiPhrase rv2.1 rv2.2))
    ∧ (∀ e e2, d.phrase o = .error e → d.multiPhrase o = .error e2 →
        ParseQuery d o = .error e2) := by
  have hstep : firstMatchingStep o = some 4 := by
    simp [firstMatchingStep, h1, h2, h3]
  have hmain : ParseQuery d o =
      (match d.phrase o with
       | .ok rv => .ok (.phrase rv.1 rv.2)
       | .error _ =>
         match d.multiPhrase o with
         | .ok rv2 => .ok (.multiPhrase rv2.1 rv2.2)
         | .error e => .error e) := by
    rw [parseQuery_eq_cascade d o, hstep]
    rfl
  refine ⟨hmain, ?_, ?_, ?_⟩
  · intro rv hp; rw [hmain, hp]
  · intro e rv2 hp hm; rw [hmain, hp, hm]
  · intro e e2 hp hm; rw [hmain, hp, hm]

/-- C3, evaluated: a `terms` value holding lists of alternatives fails
the strict Phrase decode and decodes through the fallback as multi-term
Phrase. -/
theorem parseQuery_terms_fallback_witness :
    ParseQuery (specDecoders 0) [("terms", .arr [.arr [.str "a"], .arr [.str "b"]])]
      = .ok (.multiPhrase [["a"], ["b"]] none) :=
  (parseQuery_terms_fallback (specDecoders 0)
      [("terms", .arr [.arr [.str "a"], .arr [.str "b"]])] rfl rfl rfl).2.2.1
    "cannot decode string element" ([["a"], ["b"]], none) rfl rfl

/-- Helper: the pre-search loop never touches the result while it scans
entries whose key is not the reserved one. -/
theorem parsePreSearchLoop_skip (o : JObj)
    (rv : Option (List (String × List DocumentMatch)))
    (h : ∀ kv ∈ o, kv.1 ≠ knnPreSearchDataKey) :
    parsePreSearchLoop o rv = .ok rv := by
  induction o with
  | nil => rfl
  | cons kv rest ih =>
    have hk : kv.1 ≠ knnPreSearchDataKey := h kv (by simp)
    obtain ⟨k, v⟩ := kv
    simp only [parsePreSearchLoop, if_neg hk]
    exact ih fun kv2 h2 => h kv2 (by simp [h2])

/-- C4, counterexample to the claim as stated: on an input containing
only unrecognized keys, `ParsePreSearchData` succeeds but hands back the
*nil* map (the source's `rv` is never allocated), which is not the
allocated empty mapping the claim promises. -/
theorem parsePreSearchData_nil_map_counterexample :
    ParsePreSearchData [("unrelated", .num 1)] = .ok none
    ∧ (Except.ok none : Except String (Option (List (String × List DocumentMatch))))
        ≠ .ok (some []) := by
  refine ⟨rfl, ?_⟩
  simp

/-- C4 as amended: a reserved key mapping to null decodes to a mapping
containing the key with an empty payload; an input with only
unrecognized keys succeeds — unrecognized keys are silently skipped,
never rejected — and returns the never-allocated nil map, which holds no
entries and therefore reads exactly like an empty mapping. -/
theorem parsePreSearchData_permissive (o : JObj)
    (h : ∀ kv ∈ o, kv.1 ≠ knnPreSearchDataKey) :
    ParsePreSearchData o = .ok none
    ∧ ParsePreSearchData [(knnPreSearchDataKey, .null)]
        = .ok (some [(knnPreSearchDataKey, [])])
    ∧ ParsePreSearchData [("unrelated", .num 1)] = .ok none :=
  ⟨parsePreSearchLoop_skip o none h, rfl, rfl⟩

/-- C4, evaluated on an input of two unrecognized keys. -/
theorem parsePreSearchData_permissive_witness :
    ParsePreSearchData [("unrelated", .num 1), ("also_unrelated", .str "x")] = .ok none :=
  (parsePreSearchData_permissive [("unrelated", .num 1), ("also_unrelated", .str "x")]
    (by
      intro kv h2
      simp only [List.mem_cons, List.not_mem_nil, or_false] at h2
      rcases h2 with rfl | rfl <;> simp [knnPreSearchDataKey])).1

/-- C6: expanding a query-string node invokes the grammar parser on its
raw text; parser failure becomes an error carrying both the original
text and the parser's message; parser success hands the parser's output
back to expansion itself (never returning it verbatim), so nested
string-syntax constructs get expanded too — as the closed two-stage
parser exhibits. -/
theorem expand_string_query (pq : String → Except String Query) (fuel : Nat) (s : String) :
    (∀ e, pq s = .error e →
      expandQuery pq fuel (.queryString s)
        = .error ("could not parse '" ++ s ++ "': " ++ e))
    ∧ (∀ q2, pq s = .ok q2 →
      expandQuery pq (fuel + 1) (.queryString s) = expandQuery pq fuel q2)
    ∧ expandQuery exParser 2 (.queryString "a") = .ok .matchAll
    ∧ exParser "a" = .ok (.queryString "b") := by
  refine ⟨?_, ?_, ?_, rfl⟩
  · intro e he
    simp [expandQuery, he]
  · intro q2 hq
    simp [expandQuery, hq]
  · simp [expandQuery, exParser]

/-- C6, evaluated at a failing parse. -/
theorem expand_string_query_witness :
    expandQuery exParser 5 (.queryString "qq")
      = .error "could not parse 'qq': unable to parse qq" :=
  (expand_string_query exParser 5 "qq").1 "unable to parse qq" rfl

mutual

/-- Helper: expansion returns a tree containing no query-string node
unchanged. -/
theorem expandQuery_pureTree (pq : String → Except String Query) (fuel : Nat) :
    (q : Query) → pureTree q = true → expandQuery pq fuel q = .ok q
  | .queryString _, h => by simp [pureTree] at h
  | .conjunction cs b, h => by
    have hl := expandSlice_pureList pq fuel cs (by simpa [pureTree] using h)
    simp [expandQuery, hl]
  | .disjunction ds b m, h => by
    have hl := expandSlice_pureList pq fuel ds (by simpa [pureTree] using h)
    simp [expandQuery, hl]
  | .boolean m s n b, h => by
    have h3 : pureOpt m = true ∧ pureOpt s = true ∧ pureOpt n = true := by
      simpa [pureTree, Bool.and_eq_true, and_assoc] using h
    have hm := expandOpt_pureOpt pq fuel m h3.1
    have hs := expandOpt_pureOpt pq fuel s h3.2.1
    have hn := expandOpt_pureOpt pq fuel n h3.2.2
    simp [expandQuery, hm, hs, hn]
  | .fuzzy t f, _ => by simp [expandQuery]
  | .matchQ t, _ => by simp [expandQuery]
  | .matchPhrase t, _ => by simp [expandQuery]
  | .phrase ts f, _ => by simp [expandQuery]
  | .multiPhrase ts f, _ => by simp [expandQuery]
  | .termQ t, _ => by simp [expandQuery]
  | .numericRange a b, _ => by simp [expandQuery]
  | .termRange a b, _ => by simp [expandQuery]
  | .dateRangeString a b, _ => by simp [expandQuery]
  | .prefixQ t, _ => by simp [expandQuery]
  | .regexpQ t, _ => by simp [expandQuery]
  | .wildcard t, _ => by simp [expandQuery]
  | .matchAll, _ => by simp [expandQuery]
  | .matchNone, _ => by simp [expandQuery]
  | .docID ids, _ => by simp [expandQuery]
  | .boolField b, _ => by simp [expandQuery]
  | .geoBoundingBox a b, _ => by simp [expandQuery]
  | .geoDistance a b, _ => by simp [expandQuery]
  | .geoPolygon ps, _ => by simp [expandQuery]
  | .geoShape g, _ => by simp [expandQuery]
  | .ipRange c, _ => by simp [expandQuery]
termination_by q _h => sizeOf q

theorem expandSlice_pureList (pq : String → Except String Query) (fuel : Nat) :
    (qs : List Query) → pureList qs = true → expandSlice pq fuel qs = .ok qs
  | [], _ => by simp [expandSlice]
  | q :: rest, h => by
    have h2 : pureTree q = true ∧ pureList rest = true := by
      simpa [pureList, Bool.and_eq_true] using h
    have h1 := expandQuery_pureTree pq fuel q h2.1
    have hr := expandSlice_pureList pq fuel rest h2.2
    simp [expandSlice, h1, hr]
termination_by qs _h => sizeOf qs

theorem expandOpt_pureOpt (pq : String → Except String Query) (fuel : Nat) :
    (oq : Option Query) → pureOpt oq = true → expandOpt pq fuel oq = .ok oq
  | none, _ => by simp [expandOpt]
  | some q, h => by
    have h1 := expandQuery_pureTree pq fuel q (by simpa [pureOpt] using h)
    simp [expandOpt, h1]
termination_by oq _h => sizeOf oq

end

/-- C8: on a tree containing no query-string node, expansion returns the
tree unchanged, so expanding twice equals expanding once (idempotence on
pure trees); in particular every non-composite, non-query-string variant
comes back unchanged. -/
theorem expand_idempotent_pure (pq : String → Except String Query) (fuel : Nat)
    (q : Query) (h : pureTree q = true) :
    expandQuery pq fuel q = .ok q
    ∧ (expandQuery pq fuel q).bind (expandQuery pq fuel) = expandQuery pq fuel q
    ∧ (∀ q2 : Query, isLeafVariant q2 = true → expandQuery pq fuel q2 = .ok q2) := by
  have h1 := expandQuery_pureTree pq fuel q h
  refine ⟨h1, ?_, ?_⟩
  · rw [h1]
    exact h1
  intro q2 h2
  apply expandQuery_pureTree
  cases q2 <;> simp_all [isLeafVariant, pureTree]

/-- C8, evaluated on a small pure tree. -/
theorem expand_idempotent_pure_witness :
    expandQuery exParser 1
        (.conjunction [.matchAll, .boolean none (some (.termQ "t")) none none] none)
      = .ok (.conjunction [.matchAll, .boolean none (some (.termQ "t")) none none] none) :=
  (expand_idempotent_pure exParser 1
    (.conjunction [.matchAll, .boolean none (some (.termQ "t")) none none] none) rfl).1

/-- Helper: a successful `expandSlice` run pairs children and results
positionally: same length, same order, each result the expansion of the
child at its position. -/
theorem expandSlice_ok_forall2 (pq : String → Except String Query) (fuel : Nat)
    (qs : List Query) :
    ∀ rs, expandSlice pq fuel qs = .ok rs →
      List.Forall₂ (fun q r => expandQuery pq fuel q = .ok r) qs rs := by
  induction qs with
  | nil =>
    intro rs h
    simp only [expandSlice] at h
    injection h with h
    subst h
    exact List.Forall₂.nil
  | cons q rest ih =>
    intro rs h
    simp only [expandSlice] at h
    cases heq : expandQuery pq fuel q with
    | error e => rw [heq] at h; simp at h
    | ok r =>
      rw [heq] at h
      cases heq2 : expandSlice pq fuel rest with
      | error e => rw [heq2] at h; simp at h
      | ok rs2 =>
        rw [heq2] at h
        injection h with h
        subst h
        exact List.Forall₂.cons heq (ih rs2 heq2)

/-- Helper: the first failing child aborts `expandSlice` with exactly
that child's error. -/
theorem expandSlice_error_first (pq : String → Except String Query) (fuel : Nat)
    (qs1 : List Query) :
    ∀ q qs2 e, (∀ qp ∈ qs1, ∃ r, expandQuery pq fuel qp = .ok r) →
      expandQuery pq fuel q = .error e →
      expandSlice pq fuel (qs1 ++ q :: qs2) = .error e := by
  induction qs1 with
  | nil =>
    intro q qs2 e _ hq
    simp [expandSlice, hq]
  | cons p rest ih =>
    intro q qs2 e hok hq
    obtain ⟨r, hr⟩ := hok p (by simp)
    have hrest := ih q qs2 e (fun x hx => hok x (by simp [hx])) hq
    simp [expandSlice, hr, hrest]

/-- C7: Conjunction and Disjunction expansion expands each child
independently (the result pairs with the children positionally,
preserving input order), and the first failing child aborts the whole
expansion with exactly that child's error; Boolean expansion handles its
three slots independently, each slot's result determined by expanding
that slot alone, an absent slot staying absent and never failing
(`expandOpt` of an absent slot is a successful no-op). -/
theorem expand_composite_children (pq : String → Except String Query) (fuel : Nat) :
    (∀ cs b, expandQuery pq fuel (.conjunction cs b)
        = (expandSlice pq fuel cs).map fun l => Query.conjunction l b)
    ∧ (∀ ds b m, expandQuery pq fuel (.disjunction ds b m)
        = (expandSlice pq fuel ds).map fun l => Query.disjunction l b m)
    ∧ (∀ qs rs, expandSlice pq fuel qs = .ok rs →
        List.Forall₂ (fun q r => expandQuery pq fuel q = .ok r) qs rs)
    ∧ (∀ qs1 q qs2 e b m, (∀ qp ∈ qs1, ∃ r, expandQuery pq fuel qp = .ok r) →
        expandQuery pq fuel q = .error e →
        expandQuery pq fuel (.conjunction (qs1 ++ q :: qs2) b) = .error e
        ∧ expandQuery pq fuel (.disjunction (qs1 ++ q :: qs2) b m) = .error e)
    ∧ expandOpt pq fuel none = .ok none
    ∧ (∀ m s n b q2, expandQuery pq fuel (.boolean m s n b) = .ok q2 →
        ∃ m2 s2 n2, q2 = .boolean m2 s2 n2 b
          ∧ (m = none → m2 = none) ∧ (s = none → s2 = none) ∧ (n = none → n2 = none)
          ∧ expandOpt pq fuel m = .ok m2 ∧ expandOpt pq fuel s = .ok s2
          ∧ expandOpt pq fuel n = .ok n2) := by
  have hconj : ∀ cs b, expandQuery pq fuel (.conjunction cs b)
      = (expandSlice pq fuel cs).map fun l => Query.conjunction l b := by
    intro cs b
    cases heq : expandSlice pq fuel cs <;> simp [expandQuery, heq, Except.map]
  have hdisj : ∀ ds b m, expandQuery pq fuel (.disjunction ds b m)
      = (expandSlice pq fuel ds).map fun l => Query.disjunction l b m := by
    intro ds b m
    cases heq : expandSlice pq fuel ds <;> simp [expandQuery, heq, Except.map]
  refine ⟨hconj, hdisj, expandSlice_ok_forall2 pq fuel, ?_, by simp [expandOpt], ?_⟩
  · intro qs1 q qs2 e b m hok hq
    have hsl := expandSlice_error_first pq fuel qs1 q qs2 e hok hq
    rw [hconj, hdisj, hsl]
    exact ⟨rfl, rfl⟩
  · intro m s n b q2 h
    simp only [expandQuery] at h
    cases hm : expandOpt pq fuel m with
    | error e => rw [hm] at h; simp at h
    | ok m2 =>
      rw [hm] at h
      cases hs : expandOpt pq fuel s with
      | error e => rw [hs] at h; simp at h
      | ok s2 =>
        rw [hs] at h
        cases hn : expandOpt pq fuel n with
        | error e => rw [hn] at h; simp at h
        | ok n2 =>
          rw [hn] at h
          injection h with h
          subst h
          refine ⟨m2, s2, n2, rfl, ?_, ?_, ?_, rfl, rfl, rfl⟩
          · rintro rfl
            simp only [expandOpt] at hm
            injection hm with hm
            exact hm.symm
          · rintro rfl
            simp only [expandOpt] at hs
            injection hs with hs
            exact hs.symm
          · rintro rfl
            simp only [expandOpt] at hn
            injection hn with hn
            exact hn.symm

/-- C7, evaluated: the failing second child of a conjunction aborts the
expansion with its own error. -/
theorem expand_composite_children_witness :
    expandQuery exParser 1 (.conjunction [.matchAll, .queryString "zzz"] none)
      = .error "could not parse 'zzz': unable to parse zzz" :=
  ((expand_composite_children exParser 1).2.2.2.1 [.matchAll] (.queryString "zzz") []
    "could not parse 'zzz': unable to parse zzz" none none
    (by
      intro qp hp
      simp only [List.mem_singleton] at hp
      subst hp
      exact ⟨.matchAll, by simp [expandQuery]⟩)
    (by simp [expandQuery, exParser])).1

/-- C2: heap level, composite nodes are expanded destructively: when the
node at `ptr` is a Conjunction, Disjunction or Boolean and expansion
succeeds, the address returned is `ptr` itself — the same node, not a
copy — and the result store is the post-children store overwritten *at
that same address* with the node whose child slots have been reassigned
to the expanded children; and, on the closed example, the store really
changes at the root's address, so the pre-expansion tree is not
preserved. -/
theorem expandH_in_place (pq : String → Except String Query) (fuel : Nat)
    (st : Store) (ptr : Nat) :
    (∀ cs b st2 p2, storeGet st ptr = some (.conjunction cs b) →
        expandQueryH pq (fuel + 1) st ptr = .ok (st2, p2) →
        p2 = ptr ∧ ∃ r, expandSliceH pq fuel st cs = .ok r
          ∧ st2 = storeSet r.1 ptr (.conjunction r.2 b))
    ∧ (∀ ds b m st2 p2, storeGet st ptr = some (.disjunction ds b m) →
        expandQueryH pq (fuel + 1) st ptr = .ok (st2, p2) →
        p2 = ptr ∧ ∃ r, expandSliceH pq fuel st ds = .ok r
          ∧ st2 = storeSet r.1 ptr (.disjunction r.2 b m))
    ∧ (∀ m s n b st2 p2, storeGet st ptr = some (.boolean m s n b) →
        expandQueryH pq (fuel + 1) st ptr = .ok (st2, p2) →
        p2 = ptr ∧ ∃ rm rs rn, expandOptH pq fuel st m = .ok rm
          ∧ expandOptH pq fuel rm.1 s = .ok rs
          ∧ expandOptH pq fuel rs.1 n = .ok rn
          ∧ st2 = storeSet rn.1 ptr (.boolean rm.2 rs.2 rn.2 b))
    ∧ (expandQueryH exParse 3 exStore 1 = .ok (exStoreAfter, 1)
        ∧ storeGet exStoreAfter 1 ≠ storeGet exStore 1) := by
  refine ⟨?_, ?_, ?_, ?_, ?_⟩
  · intro cs b st2 p2 hget hrun
    simp only [expandQueryH, hget] at hrun
    cases hsl : expandSliceH pq fuel st cs with
    | error e => rw [hsl] at hrun; simp at hrun
    | ok r =>
      rw [hsl] at hrun
      simp only [Except.ok.injEq, Prod.mk.injEq] at hrun
      exact ⟨hrun.2.symm, r, rfl, hrun.1.symm⟩
  · intro ds b m st2 p2 hget hrun
    simp only [expandQueryH, hget] at hrun
    cases hsl : expandSliceH pq fuel st ds with
    | error e => rw [hsl] at hrun; simp at hrun
    | ok r =>
      rw [hsl] at hrun
      simp only [Except.ok.injEq, Prod.mk.injEq] at hrun
      exact ⟨hrun.2.symm, r, rfl, hrun.1.symm⟩
  · intro m s n b st2 p2 hget hrun
    simp only [expandQueryH, hget] at hrun
    cases hm : expandOptH pq fuel st m with
    | error e => simp [hm] at hrun
    | ok rm =>
      cases hs : expandOptH pq fuel rm.1 s with
      | error e => simp [hm, hs] at hrun
      | ok rs =>
        cases hn : expandOptH pq fuel rs.1 n with
        | error e => simp [hm, hs, hn] at hrun
        | ok rn =>
          simp only [hm, hs, hn, Except.ok.injEq, Prod.mk.injEq] at hrun
          exact ⟨hrun.2.symm, rm, rs, rn, rfl, hs, hn, hrun.1.symm⟩
  · simp [expandQueryH, expandSliceH, expandOptH, allocTree, storeGet, storeSet,
          exParse, exStore, exStoreAfter]
  · simp [storeGet, exStore, exStoreAfter]

/-- C2, evaluated on the closed example: the conjunction at address 1 is
returned at the same address and its child slot was reassigned there. -/
theorem expandH_in_place_witness :
    (1 : Nat) = 1
    ∧ ∃ r, expandSliceH exParse 2 exStore [0] = .ok r
        ∧ exStoreAfter = storeSet r.1 1 (.conjunction r.2 none) :=
  (expandH_in_place exParse 2 exStore 1).1 [0] none exStoreAfter 1 rfl
    (expandH_in_place exParse 2 exStore 1).2.2.2.1
